import Mathlib

set_option maxHeartbeats 1000000

/-! Shallow embedding of the similarity-scoring core of the
DocumentSimilarityChecker repository.

JavaScript numbers are idealized: exact naturals / rationals / reals stand for
doubles, and `Option ℝ` models a JS number that may be non-finite (`none` is a
NaN or an infinity; the similarity code never distinguishes the two, and the
only non-finite value it can actually produce is NaN). JS `Set`s are modelled
as `Finset`s (only membership and size are observed by the code). The
whitespace class `\s` and `toLowerCase` are modelled on ASCII, which is the
alphabet the tokenizer keeps anyway. -/

/-- ASCII model of the JavaScript whitespace class `\s` used by the regexes
in the repository. -/
def isWS (c : Char) : Bool :=
  c = ' ' || c = '\t' || c = '\n' || c = '\r' || c = '\x0b' || c = '\x0c'

/-- Characters kept by the `replace(/[^a-z0-9\s]/g, '')` step of `tokenize`. -/
def jsKeep (c : Char) : Bool :=
  ('a' ≤ c && c ≤ 'z') || ('0' ≤ c && c ≤ '9') || isWS c

/-- Collects the maximal runs of non-whitespace characters of a character
list, dropping the whitespace: the composition of `split(/\s+/)` and
`filter(Boolean)` in `tokenize`. `acc` holds the current word reversed. -/
def wordsAux : List Char → List Char → List (List Char)
  | [], acc => if acc = [] then [] else [acc.reverse]
  | c :: rest, acc =>
    if isWS c then
      if acc = [] then wordsAux rest [] else acc.reverse :: wordsAux rest []
    else wordsAux rest (c :: acc)

/-- Function `tokenize` from src/backend/utils/similarity.js: lower-case, strip every
character outside `[a-z0-9\s]`, split on whitespace runs, drop empty
tokens. -/
def tokenize (text : String) : List String :=
  (wordsAux ((text.data.map Char.toLower).filter jsKeep) []).map String.mk

/-- Function `jaccardSimilarity` from src/backend/utils/similarity.js. The JS sets are
modelled as `Finset`s: `[...set1].filter(x => set2.has(x))` is the filter
below and `new Set([...set1, ...set2])` the union; `.size` is `card`. -/
def jaccardSimilarity (text1 text2 : String) : ℚ :=
  let set1 := (tokenize text1).toFinset
  let set2 := (tokenize text2).toFinset
  let intersection := set1.filter (fun x => x ∈ set2)
  let union := set1 ∪ set2
  if union.card = 0 then 0 else (intersection.card : ℚ) / (union.card : ℚ)

/-- Helper `createNGrams` from `ngramSimilarity`: the set of space-joined `n`-token
windows `tokens.slice(i, i + n).join(' ')`. The JS loop bound
`i <= tokens.length - n` admits no window when the document has fewer than
`n` tokens, which the truncated subtraction `tokens.length + 1 - n`
mirrors. -/
def createNGrams (text : String) (n : ℕ) : Finset String :=
  let tokens := tokenize text
  ((List.range (tokens.length + 1 - n)).map
    (fun i => String.intercalate " " ((tokens.drop i).take n))).toFinset

/-- Function `ngramSimilarity` from src/backend/utils/similarity.js (every call site
uses the default `n = 3`). -/
def ngramSimilarity (text1 text2 : String) (n : ℕ) : ℚ :=
  let ngrams1 := createNGrams text1 n
  let ngrams2 := createNGrams text2 n
  let intersection := ngrams1.filter (fun x => x ∈ ngrams2)
  let union := ngrams1 ∪ ngrams2
  if union.card = 0 then 0 else (intersection.card : ℚ) / (union.card : ℚ)

/-- JS multiplication on possibly non-finite numbers: NaN propagates. -/
noncomputable def jsMul : Option ℝ → Option ℝ → Option ℝ
  | some a, some b => some (a * b)
  | _, _ => none

/-- JS division on possibly non-finite numbers: NaN propagates, and a zero
divisor never yields a finite value (0/0 is NaN, x/0 an infinity; the
embedding conflates the two as `none`, and only the 0/0 case is reachable in
this code). -/
noncomputable def jsDiv : Option ℝ → Option ℝ → Option ℝ
  | some a, some b => if b = 0 then none else some (a / b)
  | _, _ => none

/-- JS `Math.sqrt`: NaN propagates and negative arguments give NaN. -/
noncomputable def jsSqrt : Option ℝ → Option ℝ
  | some a => if a < 0 then none else some (Real.sqrt a)
  | none => none

/-- Sum of a family of JS numbers over a finite vocabulary, as accumulated by
the `for` loop of `cosineSimilarity`: one NaN summand makes the whole
accumulator NaN. -/
noncomputable def jsSum (s : Finset String) (f : String → Option ℝ) : Option ℝ :=
  if ∀ w ∈ s, (f w).isSome then some (∑ w in s, (f w).getD 0) else none

/-- Term frequency `(freq[word] || 0) / tokens.length` from
`cosineSimilarity`; when the token list is empty this is JS `0 / 0 = NaN`. -/
noncomputable def tfEntry (tokens : List String) (w : String) : Option ℝ :=
  jsDiv (some ((tokens.count w : ℕ) : ℝ)) (some ((tokens.length : ℕ) : ℝ))

/-- The quantity `docFreq = (freq1[word] ? 1 : 0) + (freq2[word] ? 1 : 0)` from
`cosineSimilarity`; a key is truthy exactly when its count is non-zero. -/
def docFreq (tokens1 tokens2 : List String) (w : String) : ℕ :=
  (if tokens1.count w ≠ 0 then 1 else 0) + (if tokens2.count w ≠ 0 then 1 else 0)

/-- The weight `idf = Math.log(2 / (docFreq + 1)) + 1` from `cosineSimilarity`; always a
finite number here. -/
noncomputable def idf (tokens1 tokens2 : List String) (w : String) : ℝ :=
  Real.log (2 / ((docFreq tokens1 tokens2 w : ℝ) + 1)) + 1

/-- Function `cosineSimilarity` from src/backend/utils/similarity.js. `allWords` is the
set of keys of the two frequency maps; the two TF-IDF vectors are indexed by
that vocabulary, and the dot product and squared magnitudes are the loop
accumulations over it. The final guard compares with JS `===`, which NaN
never satisfies. -/
noncomputable def cosineSimilarity (text1 text2 : String) : Option ℝ :=
  let tokens1 := tokenize text1
  let tokens2 := tokenize text2
  let allWords := tokens1.toFinset ∪ tokens2.toFinset
  let v1 := fun w => jsMul (tfEntry tokens1 w) (some (idf tokens1 tokens2 w))
  let v2 := fun w => jsMul (tfEntry tokens2 w) (some (idf tokens1 tokens2 w))
  let dotProduct := jsSum allWords (fun w => jsMul (v1 w) (v2 w))
  let magnitude1 := jsSqrt (jsSum allWords (fun w => jsMul (v1 w) (v1 w)))
  let magnitude2 := jsSqrt (jsSum allWords (fun w => jsMul (v2 w) (v2 w)))
  if magnitude1 = some 0 ∨ magnitude2 = some 0 then some 0
  else jsDiv dotProduct (jsMul magnitude1 magnitude2)

/-- The split `text.split(/\s+/)` as used by `splitText` in
src/backend/utils/localSemanticSimilarity.js (NO `filter(Boolean)` there):
maximal whitespace runs separate the segments, a leading or trailing run
produces an empty segment, and the empty string splits to `[""]`. `acc`
holds the current segment reversed and `inRun` records whether the previous
character belonged to a whitespace run already accounted for. -/
def splitWSAux : List Char → List Char → Bool → List String
  | [], acc, _ => [String.mk acc.reverse]
  | c :: rest, acc, inRun =>
    if isWS c then
      if inRun then splitWSAux rest [] true
      else String.mk acc.reverse :: splitWSAux rest [] true
    else splitWSAux rest (c :: acc) false

/-- The split `text.split(/\s+/)` on a whole string. -/
def jsSplitWS (text : String) : List String :=
  splitWSAux text.data [] false

/-- JS `String.prototype.trim`: strip whitespace from both ends. -/
def jsTrim (s : String) : String :=
  String.mk (((s.data.dropWhile isWS).reverse.dropWhile isWS).reverse)

/-- JS `Array.prototype.slice` with integer arguments: negative indices count
from the end and everything is clamped to the array bounds. -/
def jsSlice (l : List String) (start stop : ℤ) : List String :=
  let n : ℤ := l.length
  let s := if start < 0 then max (n + start) 0 else min start n
  let e := if stop < 0 then max (n + stop) 0 else min stop n
  (l.drop s.toNat).take (e - s).toNat

/-- One window `words.slice(i, i + chunkSize).join(' ')` of `splitText`. -/
def chunkAt (words : List String) (chunkSize : ℕ) (i : ℤ) : String :=
  String.intercalate " " (jsSlice words i (i + (chunkSize : ℤ)))

/-- The `for (let i = 0; i < words.length; i += chunkSize - chunkOverlap)`
loop of `splitText` from src/backend/utils/localSemanticSimilarity.js, with
an explicit fuel so the JS loop's possible divergence (non-positive step) is
observable: `none` means the loop has not finished within `fuel` iterations.
A window is pushed only when it trims to a non-empty (truthy) string. -/
def splitTextLoop (words : List String) (chunkSize : ℕ) (step i : ℤ) :
    ℕ → Option (List String)
  | 0 => none
  | fuel + 1 =>
    if i < (words.length : ℤ) then
      (splitTextLoop words chunkSize step (i + step) fuel).map
        (fun rest =>
          if jsTrim (chunkAt words chunkSize i) = "" then rest
          else chunkAt words chunkSize i :: rest)
    else some []

/-- Function `splitText(text, chunkSize, chunkOverlap)` from
src/backend/utils/localSemanticSimilarity.js, run with the given fuel. The
call sites use `chunkSize = 1000`, `chunkOverlap = 200`. -/
def splitTextFuel (text : String) (chunkSize chunkOverlap : ℕ) (fuel : ℕ) :
    Option (List String) :=
  splitTextLoop (jsSplitWS text) chunkSize ((chunkSize : ℤ) - (chunkOverlap : ℤ)) 0 fuel

/-- The equal-length body shared by both `cosineSimilarity` methods over
embedding vectors (src/backend/utils/semanticSimilarity.js lines 45-59 and
src/backend/utils/localSemanticSimilarity.js lines 97-111): dot product,
square-root magnitudes, zero-magnitude guard. All inputs are finite numbers
here, so plain reals suffice. -/
noncomputable def vectorCosine (vec1 vec2 : List ℝ) : ℝ :=
  let dotProduct := (List.zipWith (fun a b => a * b) vec1 vec2).sum
  let magnitude1 := Real.sqrt ((List.zipWith (fun a b => a * b) vec1 vec1).sum)
  let magnitude2 := Real.sqrt ((List.zipWith (fun a b => a * b) vec2 vec2).sum)
  if magnitude1 = 0 ∨ magnitude2 = 0 then 0
  else dotProduct / (magnitude1 * magnitude2)

/-- Method `SemanticSimilarityService.cosineSimilarity` from
src/backend/utils/semanticSimilarity.js: throws on a length mismatch,
modelled as `Except.error` with the thrown message. -/
noncomputable def semanticCosineSimilarity (vec1 vec2 : List ℝ) : Except String ℝ :=
  if vec1.length ≠ vec2.length then
    Except.error "Vectors must have the same length"
  else Except.ok (vectorCosine vec1 vec2)

/-- Method `LocalSemanticSimilarityService.cosineSimilarity` from
src/backend/utils/localSemanticSimilarity.js: on a length mismatch it pads
the shorter vector with zeros to the longer length and recurses (the
null/undefined guard of the source cannot fire for Lean lists). -/
noncomputable def localCosineSimilarity (vec1 vec2 : List ℝ) : ℝ :=
  if h : vec1.length ≠ vec2.length then
    let maxLength := max vec1.length vec2.length
    localCosineSimilarity
      (vec1 ++ List.replicate (maxLength - vec1.length) 0)
      (vec2 ++ List.replicate (maxLength - vec2.length) 0)
  else vectorCosine vec1 vec2
termination_by (if vec1.length = vec2.length then 0 else 1)
decreasing_by
  simp only [List.length_append, List.length_replicate]
  split_ifs <;> omega

/-- The score and only the score of one semantic sub-strategy, as consumed by
`calculateCombinedSimilarity`; how the provider produced it is opaque to the
combination step. -/
structure SubResult where
  score : ℝ

/-- The `weights` literal of `calculateCombinedSimilarity`. -/
structure CombineWeights where
  embedding : ℝ
  rag : ℝ
  llm : ℝ

/-- The `details` object built by `calculateCombinedSimilarity` (sub-scores
and weights; the nested per-strategy detail objects are opaque here). -/
structure CombinedDetails where
  embeddingScore : ℝ
  ragScore : ℝ
  llmScore : ℝ
  weights : CombineWeights

/-- The result object of `calculateCombinedSimilarity`. -/
structure CombinedResult where
  score : ℝ
  algorithmName : String
  details : CombinedDetails

/-- Method `calculateCombinedSimilarity` from src/backend/utils/semanticSimilarity.js
(lines 224-256), given the three already-computed sub-results of the
embedding, RAG and LLM strategies (the `Promise.all` fan-out is pure
fan-out/fan-in, so the combination step is a function of the three
results). -/
noncomputable def calculateCombinedSimilarity
    (embeddingResult ragResult llmResult : SubResult) : CombinedResult :=
  let weights : CombineWeights := { embedding := 0.4, rag := 0.3, llm := 0.3 }
  { score := embeddingResult.score * weights.embedding +
      ragResult.score * weights.rag + llmResult.score * weights.llm
    algorithmName := "Semantic Similarity (Embeddings + FAISS + LLM)"
    details :=
      { embeddingScore := embeddingResult.score
        ragScore := ragResult.score
        llmScore := llmResult.score
        weights := weights } }

/-- Method `calculateCombinedSimilarity` from
src/backend/utils/localSemanticSimilarity.js (lines 335-369): identical
arithmetic, different algorithm name. -/
noncomputable def localCalculateCombinedSimilarity
    (embeddingResult ragResult llmResult : SubResult) : CombinedResult :=
  let weights : CombineWeights := { embedding := 0.4, rag := 0.3, llm := 0.3 }
  { score := embeddingResult.score * weights.embedding +
      ragResult.score * weights.rag + llmResult.score * weights.llm
    algorithmName := "Local Semantic Similarity (Embeddings + RAG + LLM-like)"
    details :=
      { embeddingScore := embeddingResult.score
        ragScore := ragResult.score
        llmScore := llmResult.score
        weights := weights } }

/-- The JSON object the LLM prompt of `calculateLLMSimilarity` asks for. -/
structure LLMJson where
  similarity_score : ℝ
  reasoning : String
  key_similarities : List String
  key_differences : List String

/-- The result of `calculateLLMSimilarity`; the key-list fields are absent
(`none`) in the parse-error fallback object. -/
structure LLMResult where
  score : ℝ
  reasoning : String
  keySimilarities : Option (List String)
  keyDifferences : Option (List String)
  method : String

/-- Method `calculateLLMSimilarity` from src/backend/utils/semanticSimilarity.js
(lines 155-221), abstracted over its two external effects: `chatResponse` is
the awaited `chain.call` text (`Except.error` when the provider call throws,
which the outer catch rethrows), and `parse` is `JSON.parse` plus field
extraction (`none` when the response text does not parse as the expected
object, which the inner catch turns into the neutral 0.5 fallback). -/
noncomputable def calculateLLMSimilarity (parse : String → Option LLMJson)
    (chatResponse : Except String String) : Except String LLMResult :=
  match chatResponse with
  | Except.error e => Except.error e
  | Except.ok text =>
    match parse text with
    | some r =>
      Except.ok
        { score := r.similarity_score
          reasoning := r.reasoning
          keySimilarities := some r.key_similarities
          keyDifferences := some r.key_differences
          method := "LLM Analysis" }
    | none =>
      Except.ok
        { score := 0.5
          reasoning := "Error parsing LLM response"
          keySimilarities := none
          keyDifferences := none
          method := "LLM Analysis (Error)" }

/-- The lower-casing `algorithm.toLowerCase()` (ASCII model, as for `tokenize`). -/
def jsToLowerString (s : String) : String :=
  String.mk (s.data.map Char.toLower)

/-- The `details` object of the lexical `compare`. -/
structure CompareDetails where
  doc1Words : ℕ
  doc2Words : ℕ

/-- The result of the lexical `compare` in
src/backend/controllers/compareController.js. The score is a JS number: the
Jaccard and n-gram scores are always finite rationals, the cosine score may
be non-finite. -/
structure CompareResult where
  score : Option ℝ
  algorithmName : String
  details : CompareDetails

/-- Function `compare` from src/backend/controllers/compareController.js (lines
87-113): switch on the lower-cased identifier, with `jaccard` both an
explicit case and the default. -/
noncomputable def compareController.compare (doc1 doc2 algorithm : String) : CompareResult :=
  let result :=
    match jsToLowerString algorithm with
    | "cosine" => (cosineSimilarity doc1 doc2, "Cosine Similarity (TF-IDF)")
    | "ngram" => (some ((ngramSimilarity doc1 doc2 3 : ℚ) : ℝ), "N-gram Similarity")
    | _ => (some ((jaccardSimilarity doc1 doc2 : ℚ) : ℝ), "Jaccard Similarity")
  { score := result.1
    algorithmName := result.2
    details :=
      { doc1Words := (tokenize doc1).length
        doc2Words := (tokenize doc2).length } }

/-! ## Unfolding equations and basic lemmas -/

theorem jaccardSimilarity_eq (text1 text2 : String) :
    jaccardSimilarity text1 text2 =
      if ((tokenize text1).toFinset ∪ (tokenize text2).toFinset).card = 0 then 0
      else (((tokenize text1).toFinset.filter
            (fun x => x ∈ (tokenize text2).toFinset)).card : ℚ) /
          (((tokenize text1).toFinset ∪ (tokenize text2).toFinset).card : ℚ) := rfl

theorem ngramSimilarity_eq (text1 text2 : String) (n : ℕ) :
    ngramSimilarity text1 text2 n =
      if (createNGrams text1 n ∪ createNGrams text2 n).card = 0 then 0
      else (((createNGrams text1 n).filter
            (fun x => x ∈ createNGrams text2 n)).card : ℚ) /
          ((createNGrams text1 n ∪ createNGrams text2 n).card : ℚ) := rfl

theorem jsMul_comm (a b : Option ℝ) : jsMul a b = jsMul b a := by
  cases a <;> cases b <;> simp [jsMul, mul_comm]

theorem jsMul_none_left (x : Option ℝ) : jsMul none x = none := by
  cases x <;> rfl

theorem jsDiv_none_left (x : Option ℝ) : jsDiv none x = none := by
  cases x <;> rfl

theorem jsSum_congr {s : Finset String} {f g : String → Option ℝ}
    (h : ∀ w ∈ s, f w = g w) : jsSum s f = jsSum s g := by
  unfold jsSum
  by_cases hf : ∀ w ∈ s, (f w).isSome
  · rw [if_pos hf, if_pos (fun w hw => (h w hw) ▸ hf w hw)]
    exact congrArg _ (Finset.sum_congr rfl fun w hw => by rw [h w hw])
  · rw [if_neg hf, if_neg (fun hg => hf fun w hw => (h w hw).symm ▸ hg w hw)]

theorem jsSum_eq_map_sum {s : Finset String} {f : String → Option ℝ}
    {g : String → ℝ} (h : ∀ w ∈ s, f w = some (g w)) :
    jsSum s f = some (∑ w in s, g w) := by
  unfold jsSum
  rw [if_pos (fun w hw => by rw [h w hw]; rfl)]
  exact congrArg _ (Finset.sum_congr rfl fun w hw => by rw [h w hw]; rfl)

theorem jsSum_none {s : Finset String} {f : String → Option ℝ} {w : String}
    (hw : w ∈ s) (hf : f w = none) : jsSum s f = none := by
  unfold jsSum
  rw [if_neg]
  intro hall
  have := hall w hw
  rw [hf] at this
  exact Bool.noConfusion this

theorem jsSum_singleton (w : String) (f : String → Option ℝ) :
    jsSum {w} f = f w := by
  cases hfw : f w with
  | none => exact jsSum_none (Finset.mem_singleton_self w) hfw
  | some a =>
    rw [@jsSum_eq_map_sum {w} f (fun _ => a) (fun x hx => by
      rw [Finset.mem_singleton] at hx; rw [hx, hfw])]
    rw [Finset.sum_singleton]

/-! ## C5: Jaccard formula and worked example -/

/-- C5: jaccardSimilarity computes |intersection| / |union| over the two
documents' token sets and returns 0 when the union is empty; on
doc1 = "the cat sat on the mat", doc2 = "the cat sat on the rug" it returns
exactly 4/6. -/
theorem C5_jaccard_formula :
    (∀ text1 text2 : String,
      ((tokenize text1).toFinset ∪ (tokenize text2).toFinset).Nonempty →
        jaccardSimilarity text1 text2 =
          (((tokenize text1).toFinset ∩ (tokenize text2).toFinset).card : ℚ) /
            (((tokenize text1).toFinset ∪ (tokenize text2).toFinset).card : ℚ)) ∧
    (∀ text1 text2 : String,
      (tokenize text1).toFinset ∪ (tokenize text2).toFinset = ∅ →
        jaccardSimilarity text1 text2 = 0) ∧
    jaccardSimilarity "the cat sat on the mat" "the cat sat on the rug" = 4 / 6 := by
  refine ⟨?_, ?_, ?_⟩
  · intro t1 t2 h
    obtain ⟨a, ha⟩ := h
    rw [jaccardSimilarity_eq, Finset.filter_mem_eq_inter,
      if_neg (Finset.card_ne_zero_of_mem ha)]
  · intro t1 t2 h
    rw [jaccardSimilarity_eq, if_pos (by rw [h]; rfl)]
  · rw [jaccardSimilarity_eq]
    have h1 : ((tokenize "the cat sat on the mat").toFinset.filter
        (fun x => x ∈ (tokenize "the cat sat on the rug").toFinset)).card = 4 := by decide
    have h2 : ((tokenize "the cat sat on the mat").toFinset ∪
        (tokenize "the cat sat on the rug").toFinset).card = 6 := by decide
    rw [h1, h2]
    norm_num

/-- Witness for C5 at the worked example and at two all-punctuation inputs. -/
theorem C5_jaccard_formula_witness :
    jaccardSimilarity "the cat sat on the mat" "the cat sat on the rug" =
      (((tokenize "the cat sat on the mat").toFinset ∩
          (tokenize "the cat sat on the rug").toFinset).card : ℚ) /
        (((tokenize "the cat sat on the mat").toFinset ∪
          (tokenize "the cat sat on the rug").toFinset).card : ℚ) ∧
    jaccardSimilarity "!?" "..." = 0 :=
  ⟨C5_jaccard_formula.1 _ _ (by decide), C5_jaccard_formula.2.1 "!?" "..." (by decide)⟩

/-! ## C6: symmetry of the three lexical scores -/

/-- C6: jaccardSimilarity, cosineSimilarity and ngramSimilarity are symmetric
in their two document arguments (for every n-gram size, in particular the
default 3). -/
theorem C6_symmetry (d1 d2 : String) (n : ℕ) :
    jaccardSimilarity d1 d2 = jaccardSimilarity d2 d1 ∧
    cosineSimilarity d1 d2 = cosineSimilarity d2 d1 ∧
    ngramSimilarity d1 d2 n = ngramSimilarity d2 d1 n := by
  refine ⟨?_, ?_, ?_⟩
  · rw [jaccardSimilarity_eq, jaccardSimilarity_eq, Finset.filter_mem_eq_inter,
      Finset.filter_mem_eq_inter, Finset.inter_comm, Finset.union_comm]
  · simp only [cosineSimilarity]
    have hidf : idf (tokenize d2) (tokenize d1) = idf (tokenize d1) (tokenize d2) := by
      funext w
      unfold idf
      have : docFreq (tokenize d2) (tokenize d1) w = docFreq (tokenize d1) (tokenize d2) w :=
        add_comm _ _
      rw [this]
    rw [hidf, Finset.union_comm (tokenize d2).toFinset (tokenize d1).toFinset]
    refine if_congr or_comm rfl ?_
    refine congrArg₂ jsDiv ?_ (jsMul_comm _ _)
    exact jsSum_congr fun w _ => jsMul_comm _ _
  · rw [ngramSimilarity_eq, ngramSimilarity_eq, Finset.filter_mem_eq_inter,
      Finset.filter_mem_eq_inter, Finset.inter_comm, Finset.union_comm]

/-! ## C2: self-similarity of identical documents -/

theorem jaccard_self (d : String) (h : tokenize d ≠ []) :
    jaccardSimilarity d d = 1 := by
  rw [jaccardSimilarity_eq, Finset.filter_mem_eq_inter, Finset.inter_self,
    Finset.union_self]
  obtain ⟨a, ha⟩ := (List.toFinset_nonempty_iff (tokenize d)).mpr h
  rw [if_neg (Finset.card_ne_zero_of_mem ha)]
  exact div_self (Nat.cast_ne_zero.mpr (Finset.card_ne_zero_of_mem ha))

theorem ngram_self (d : String) (n : ℕ)
    (h : n ≤ (tokenize d).length) : ngramSimilarity d d n = 1 := by
  rw [ngramSimilarity_eq, Finset.filter_mem_eq_inter, Finset.inter_self,
    Finset.union_self]
  have hmem : String.intercalate " " ((tokenize d).take n) ∈ createNGrams d n := by
    unfold createNGrams
    rw [List.mem_toFinset, List.mem_map]
    exact ⟨0, List.mem_range.mpr (by omega), by rw [List.drop_zero]⟩
  rw [if_neg (Finset.card_ne_zero_of_mem hmem)]
  exact div_self (Nat.cast_ne_zero.mpr (Finset.card_ne_zero_of_mem hmem))

/-- The IDF weight a word present in both documents receives:
`Math.log(2/3) + 1`, which is strictly positive because `3/2 < e`. -/
theorem idf_both_pos : (0 : ℝ) < Real.log (2 / 3) + 1 := by
  have h32 : (3 : ℝ) / 2 < Real.exp 1 :=
    lt_trans (by norm_num) Real.exp_one_gt_d9
  have hinv : Real.exp (-1) < 2 / 3 := by
    rw [Real.exp_neg]
    have := inv_lt_inv_of_lt (by norm_num : (0 : ℝ) < 3 / 2) h32
    calc (Real.exp 1)⁻¹ < ((3 : ℝ) / 2)⁻¹ := this
    _ = 2 / 3 := by norm_num
  have := (Real.lt_log_iff_exp_lt (by norm_num : (0 : ℝ) < 2 / 3)).mpr hinv
  linarith

theorem cosine_self (d : String) (h : tokenize d ≠ []) :
    cosineSimilarity d d = some 1 := by
  simp only [cosineSimilarity]
  rw [Finset.union_self]
  have hlen : (0 : ℝ) < ((tokenize d).length : ℕ) := by
    exact_mod_cast List.length_pos.mpr h
  have hidf : ∀ w ∈ (tokenize d).toFinset,
      idf (tokenize d) (tokenize d) w = Real.log (2 / 3) + 1 := by
    intro w hw
    have hc : (tokenize d).count w ≠ 0 :=
      fun h0 => (List.count_eq_zero.mp h0) (List.mem_toFinset.mp hw)
    unfold idf docFreq
    rw [if_pos hc]
    norm_num
  have hentry : ∀ w ∈ (tokenize d).toFinset,
      jsMul (tfEntry (tokenize d) w) (some (idf (tokenize d) (tokenize d) w)) =
        some ((((tokenize d).count w : ℝ) / ((tokenize d).length : ℕ)) *
          (Real.log (2 / 3) + 1)) := by
    intro w hw
    unfold tfEntry
    rw [hidf w hw]
    simp [jsDiv, jsMul, hlen.ne']
  have hpos : ∀ w ∈ (tokenize d).toFinset,
      (0 : ℝ) < (((tokenize d).count w : ℝ) / ((tokenize d).length : ℕ)) *
        (Real.log (2 / 3) + 1) := by
    intro w hw
    have hc : 0 < (tokenize d).count w :=
      List.count_pos_iff_mem.mpr (List.mem_toFinset.mp hw)
    have hcr : (0 : ℝ) < ((tokenize d).count w : ℕ) := by exact_mod_cast hc
    exact mul_pos (div_pos hcr hlen) idf_both_pos
  set g : String → ℝ := fun w =>
    (((tokenize d).count w : ℝ) / ((tokenize d).length : ℕ)) *
      (Real.log (2 / 3) + 1) with hg
  have hdot : jsSum (tokenize d).toFinset
      (fun w => jsMul
        (jsMul (tfEntry (tokenize d) w) (some (idf (tokenize d) (tokenize d) w)))
        (jsMul (tfEntry (tokenize d) w) (some (idf (tokenize d) (tokenize d) w)))) =
      some (∑ w in (tokenize d).toFinset, g w * g w) := by
    refine jsSum_eq_map_sum fun w hw => ?_
    rw [hentry w hw]
    rfl
  have hS : (0 : ℝ) < ∑ w in (tokenize d).toFinset, g w * g w := by
    refine Finset.sum_pos (fun w hw => mul_pos (hpos w hw) (hpos w hw)) ?_
    exact (List.toFinset_nonempty_iff (tokenize d)).mpr h
  rw [hdot]
  have hsqrt : jsSqrt (some (∑ w in (tokenize d).toFinset, g w * g w)) =
      some (Real.sqrt (∑ w in (tokenize d).toFinset, g w * g w)) := by
    simp only [jsSqrt]
    rw [if_neg (not_lt.mpr hS.le)]
  rw [hsqrt]
  have hsz : Real.sqrt (∑ w in (tokenize d).toFinset, g w * g w) ≠ 0 :=
    ne_of_gt (Real.sqrt_pos.mpr hS)
  rw [if_neg (by simp [hsz])]
  simp only [jsMul]
  rw [Real.mul_self_sqrt hS.le]
  simp only [jsDiv]
  rw [if_neg hS.ne']
  rw [div_self hS.ne']

/-- C2 counterexample: "a" is a byte-wise non-empty document, yet its n-gram
self-similarity is 0, not 1 (it has fewer than 3 tokens, so both n-gram sets
are empty and the empty-union guard returns 0). -/
theorem C2_counterexample :
    ("a" : String) ≠ "" ∧ ngramSimilarity "a" "a" 3 = 0 ∧
    ngramSimilarity "a" "a" 3 ≠ 1 := by
  have h : ngramSimilarity "a" "a" 3 = 0 := by
    rw [ngramSimilarity_eq, if_pos (by decide)]
  exact ⟨by decide, h, by rw [h]; norm_num⟩

/-- C2 (amended): for every document that tokenizes to at least 3 tokens (the
n-gram size), all three lexical algorithms score the document against itself
as exactly 1. (Byte-wise non-emptiness is not enough: a document with fewer
than 3 tokens has n-gram score 0, and one with no tokens at all scores 0
everywhere.) -/
theorem C2_identical_docs (d : String) (h : 3 ≤ (tokenize d).length) :
    jaccardSimilarity d d = 1 ∧ cosineSimilarity d d = some 1 ∧
    ngramSimilarity d d 3 = 1 := by
  have hne : tokenize d ≠ [] := by
    intro h0
    rw [h0] at h
    exact absurd h (by norm_num)
  exact ⟨jaccard_self d hne, cosine_self d hne, ngram_self d 3 h⟩

/-- Witness for C2 at the concrete document "a b c". -/
theorem C2_identical_docs_witness :
    jaccardSimilarity "a b c" "a b c" = 1 ∧
    cosineSimilarity "a b c" "a b c" = some 1 ∧
    ngramSimilarity "a b c" "a b c" 3 = 1 :=
  C2_identical_docs "a b c" (by decide)

/-! ## C1: an empty-after-tokenization document against a non-empty one -/

/-- C1 evaluation at the failing input doc1 = "!!!" (tokenizes to nothing),
doc2 = "hello": Jaccard and n-gram do return 0, but cosineSimilarity returns
NaN (`none`): the term frequency of the empty document is JS `0/0 = NaN`,
NaN propagates into `magnitude1`, and `NaN === 0` is false, so the
zero-magnitude guard does not fire. -/
theorem C1_cosine_nan_at_failing_input :
    jaccardSimilarity "!!!" "hello" = 0 ∧
    ngramSimilarity "!!!" "hello" 3 = 0 ∧
    cosineSimilarity "!!!" "hello" = none := by
  refine ⟨?_, ?_, ?_⟩
  · rw [jaccardSimilarity_eq]
    have h1 : ((tokenize "!!!").toFinset.filter
        (fun x => x ∈ (tokenize "hello").toFinset)).card = 0 := by decide
    have h2 : ((tokenize "!!!").toFinset ∪ (tokenize "hello").toFinset).card = 1 := by
      decide
    rw [h1, h2]
    norm_num
  · rw [ngramSimilarity_eq, if_pos (by decide)]
  · have ht1 : tokenize "!!!" = [] := by decide
    have ht2 : tokenize "hello" = ["hello"] := by decide
    have hset : (([] : List String).toFinset ∪ (["hello"] : List String).toFinset) =
        {"hello"} := by decide
    have htf1 : tfEntry [] "hello" = none := by
      simp [tfEntry, jsDiv]
    have hdf : docFreq [] ["hello"] "hello" = 1 := by decide
    have hidf2 : idf [] ["hello"] "hello" = 1 := by
      unfold idf
      rw [hdf]
      norm_num
    have htf2 : tfEntry ["hello"] "hello" = some 1 := by
      have hc : (["hello"] : List String).count "hello" = 1 := by decide
      have hl : (["hello"] : List String).length = 1 := by decide
      simp only [tfEntry, hc, hl, jsDiv]
      norm_num
    simp only [cosineSimilarity, ht1, ht2, hset, jsSum_singleton, htf1, htf2,
      hidf2, jsMul_none_left]
    have hv2 : jsMul (some (1 : ℝ)) (some (1 : ℝ)) = some 1 := by
      simp [jsMul]
    simp only [hv2, jsMul_none_left]
    have hs1 : jsSqrt (some (1 : ℝ)) = some 1 := by
      simp [jsSqrt, Real.sqrt_one]
    simp only [jsSqrt, hs1]
    rw [if_neg (by simp)]
    simp [jsMul_none_left, jsDiv_none_left]

/-! ## C4: the combined semantic score is the fixed weighted sum -/

/-- C4: both `calculateCombinedSimilarity` implementations (OpenAI-backed and
local) combine the three sub-scores as exactly
0.4*embeddingScore + 0.3*ragScore + 0.3*llmScore, and their details report
the three sub-scores and the fixed weights. -/
theorem C4_combined_weighted_sum (e r l : SubResult) :
    (calculateCombinedSimilarity e r l).score =
      0.4 * e.score + 0.3 * r.score + 0.3 * l.score ∧
    (calculateCombinedSimilarity e r l).details.embeddingScore = e.score ∧
    (calculateCombinedSimilarity e r l).details.ragScore = r.score ∧
    (calculateCombinedSimilarity e r l).details.llmScore = l.score ∧
    (calculateCombinedSimilarity e r l).details.weights =
      { embedding := 0.4, rag := 0.3, llm := 0.3 } ∧
    (localCalculateCombinedSimilarity e r l).score =
      0.4 * e.score + 0.3 * r.score + 0.3 * l.score ∧
    (localCalculateCombinedSimilarity e r l).details.embeddingScore = e.score ∧
    (localCalculateCombinedSimilarity e r l).details.ragScore = r.score ∧
    (localCalculateCombinedSimilarity e r l).details.llmScore = l.score ∧
    (localCalculateCombinedSimilarity e r l).details.weights =
      { embedding := 0.4, rag := 0.3, llm := 0.3 } := by
  refine ⟨?_, rfl, rfl, rfl, rfl, ?_, rfl, rfl, rfl, rfl⟩ <;>
    · simp only [calculateCombinedSimilarity, localCalculateCombinedSimilarity]
      ring

/-! ## C7: unknown identifiers fall back to Jaccard -/

/-- C7: for every algorithm identifier that is none of the recognized lexical
identifiers (after lower-casing) and does not start with the semantic-family
prefix, `compare` returns the Jaccard score, the name "Jaccard Similarity",
and the two documents' token counts. -/
theorem C7_unknown_algorithm_fallback (doc1 doc2 alg : String)
    (h1 : jsToLowerString alg ≠ "jaccard") (h2 : jsToLowerString alg ≠ "cosine")
    (h3 : jsToLowerString alg ≠ "ngram") (h4 : ¬ alg.startsWith "semantic") :
    compareController.compare doc1 doc2 alg =
      { score := some ((jaccardSimilarity doc1 doc2 : ℚ) : ℝ)
        algorithmName := "Jaccard Similarity"
        details :=
          { doc1Words := (tokenize doc1).length
            doc2Words := (tokenize doc2).length } } := by
  unfold compareController.compare
  split
  · exact absurd (by assumption) h2
  · exact absurd (by assumption) h3
  · rfl

/-- Witness for C7 at the unknown identifier "foo". -/
theorem C7_unknown_algorithm_fallback_witness :
    compareController.compare "aa bb" "aa" "foo" =
      { score := some ((jaccardSimilarity "aa bb" "aa" : ℚ) : ℝ)
        algorithmName := "Jaccard Similarity"
        details :=
          { doc1Words := (tokenize "aa bb").length
            doc2Words := (tokenize "aa").length } } :=
  C7_unknown_algorithm_fallback "aa bb" "aa" "foo" (by decide) (by decide)
    (by decide) (by decide)

/-! ## C8: unparseable chat-backend responses degrade to the neutral score -/

/-- C8: when the chat-backend response text does not parse as the expected
JSON object, `calculateLLMSimilarity` does not propagate the parse error: it
returns score 0.5 with the diagnostic reasoning and error-tagged method; a
provider error, by contrast, is propagated. -/
theorem C8_llm_parse_failure (parse : String → Option LLMJson) (text e : String) :
    (parse text = none →
      calculateLLMSimilarity parse (Except.ok text) =
        Except.ok
          { score := 0.5
            reasoning := "Error parsing LLM response"
            keySimilarities := none
            keyDifferences := none
            method := "LLM Analysis (Error)" }) ∧
    calculateLLMSimilarity parse (Except.error e) = Except.error e := by
  constructor
  · intro hp
    simp only [calculateLLMSimilarity, hp]
  · rfl

/-- Witness for C8 with an always-failing parse of the text "not json". -/
theorem C8_llm_parse_failure_witness :
    calculateLLMSimilarity (fun _ => none) (Except.ok "not json") =
      Except.ok
        { score := 0.5
          reasoning := "Error parsing LLM response"
          keySimilarities := none
          keyDifferences := none
          method := "LLM Analysis (Error)" } ∧
    calculateLLMSimilarity (fun _ => none) (Except.error "boom") =
      Except.error "boom" :=
  ⟨(C8_llm_parse_failure (fun _ => none) "not json" "boom").1 rfl,
    (C8_llm_parse_failure (fun _ => none) "not json" "boom").2⟩

/-! ## C10: the local vector cosine is total; the OpenAI one throws -/

/-- C10: `LocalSemanticSimilarityService.cosineSimilarity` is total over every
pair of vectors: it zero-pads the shorter vector to the longer length and
returns the cosine of the padded vectors (with the zero-magnitude guard
inside `vectorCosine`), while the `SemanticSimilarityService` variant throws
"Vectors must have the same length" on any length mismatch. -/
theorem C10_local_cosine_total (vec1 vec2 : List ℝ) :
    localCosineSimilarity vec1 vec2 =
      vectorCosine
        (vec1 ++ List.replicate (max vec1.length vec2.length - vec1.length) 0)
        (vec2 ++ List.replicate (max vec1.length vec2.length - vec2.length) 0) ∧
    (vec1.length ≠ vec2.length →
      semanticCosineSimilarity vec1 vec2 =
        Except.error "Vectors must have the same length") := by
  constructor
  · by_cases h : vec1.length = vec2.length
    · rw [localCosineSimilarity, dif_neg (fun hh => hh h)]
      have e1 : max vec1.length vec2.length - vec1.length = 0 := by omega
      have e2 : max vec1.length vec2.length - vec2.length = 0 := by omega
      rw [e1, e2]
      simp
    · rw [localCosineSimilarity, dif_pos h, localCosineSimilarity, dif_neg]
      simp only [List.length_append, List.length_replicate]
      omega
  · intro h
    simp only [semanticCosineSimilarity, if_pos h]

/-! ## C3 / C9: chunking -/

theorem splitWSAux_ne_nil : ∀ (l acc : List Char) (inRun : Bool),
    splitWSAux l acc inRun ≠ [] := by
  intro l
  induction l with
  | nil => intro acc inRun; simp [splitWSAux]
  | cons c rest ih =>
    intro acc inRun
    simp only [splitWSAux]
    by_cases hws : isWS c
    · rw [if_pos hws]
      cases inRun with
      | true => simpa using ih [] true
      | false => simp
    · rw [if_neg hws]
      exact ih (c :: acc) false

theorem jsSplitWS_ne_nil (text : String) : jsSplitWS text ≠ [] :=
  splitWSAux_ne_nil text.data [] false

theorem splitWSAux_no_ws : ∀ (l acc : List Char) (inRun : Bool),
    (∀ c ∈ acc, isWS c = false) →
    ∀ w ∈ splitWSAux l acc inRun, ∀ c ∈ w.data, isWS c = false := by
  intro l
  induction l with
  | nil =>
    intro acc inRun hacc w hw c hc
    simp only [splitWSAux, List.mem_singleton] at hw
    rw [hw] at hc
    exact hacc c (List.mem_reverse.mp hc)
  | cons d rest ih =>
    intro acc inRun hacc w hw c hc
    simp only [splitWSAux] at hw
    by_cases hws : isWS d
    · rw [if_pos hws] at hw
      cases inRun with
      | true =>
        rw [if_pos rfl] at hw
        exact ih [] true (by simp) w hw c hc
      | false =>
        rw [if_neg (by simp)] at hw
        rcases List.mem_cons.mp hw with h1 | h2
        · rw [h1] at hc
          exact hacc c (List.mem_reverse.mp hc)
        · exact ih [] true (by simp) w h2 c hc
    · rw [if_neg hws] at hw
      refine ih (d :: acc) false ?_ w hw c hc
      intro x hx
      rcases List.mem_cons.mp hx with h1 | h2
      · rw [h1]; exact eq_false_of_ne_true hws
      · exact hacc x h2

theorem jsSplitWS_no_ws (text : String) :
    ∀ w ∈ jsSplitWS text, ∀ c ∈ w.data, isWS c = false :=
  splitWSAux_no_ws text.data [] false (by simp)

theorem intercalate_go_mem (t : List String) :
    ∀ (acc sep : String) (c : Char), c ∈ acc.data →
      c ∈ (String.intercalate.go acc sep t).data := by
  induction t with
  | nil =>
    intro acc sep c hc
    simpa [String.intercalate.go] using hc
  | cons a as ih =>
    intro acc sep c hc
    rw [show String.intercalate.go acc sep (a :: as) =
      String.intercalate.go (acc ++ sep ++ a) sep as from by
        simp [String.intercalate.go]]
    exact ih _ _ _ (by simp [String.data_append, hc])

theorem mem_intercalate_cons (w : String) (t : List String) (c : Char)
    (hc : c ∈ w.data) : c ∈ (String.intercalate " " (w :: t)).data :=
  intercalate_go_mem t w " " c hc

theorem jsTrim_ne_empty {s : String} {c : Char} (hc : c ∈ s.data)
    (hws : isWS c = false) : jsTrim s ≠ "" := by
  intro h
  have hdata : (((s.data.dropWhile isWS).reverse.dropWhile isWS).reverse) = [] :=
    congrArg String.data h
  rw [List.reverse_eq_nil_iff, List.dropWhile_eq_nil_iff] at hdata
  have hall2 : ∀ x ∈ s.data.dropWhile isWS, isWS x = true := fun x hx =>
    hdata x (List.mem_reverse.mpr hx)
  rw [← List.takeWhile_append_dropWhile isWS s.data] at hc
  rcases List.mem_append.mp hc with h1 | h2
  · rw [List.mem_takeWhile_imp h1] at hws
    exact Bool.noConfusion hws
  · rw [hall2 c h2] at hws
    exact Bool.noConfusion hws

theorem jsSlice_nat (l : List String) (i cs : ℕ) :
    jsSlice l (i : ℤ) ((i : ℤ) + (cs : ℤ)) = (l.drop i).take cs := by
  simp only [jsSlice]
  rw [if_neg (by omega : ¬ ((i : ℤ) < 0)),
    if_neg (by omega : ¬ ((i : ℤ) + (cs : ℤ) < 0))]
  rcases le_or_lt l.length i with h | h
  · have h1 : (min (i : ℤ) (l.length : ℤ)).toNat = l.length := by omega
    rw [h1, List.drop_length, List.take_nil, List.drop_eq_nil_of_le h,
      List.take_nil]
  · have h1 : (min (i : ℤ) (l.length : ℤ)).toNat = i := by omega
    rw [h1, List.take_eq_take, List.length_drop]
    omega

theorem chunk_trim_ne (words : List String) (cs : ℕ) (hcs : 1 ≤ cs) (i : ℕ)
    (hi : i < words.length) (hne : ∀ w ∈ words, w ≠ "")
    (hws : ∀ w ∈ words, ∀ c ∈ w.data, isWS c = false) :
    jsTrim (chunkAt words cs (i : ℤ)) ≠ "" := by
  unfold chunkAt
  rw [jsSlice_nat, List.drop_eq_getElem_cons hi]
  obtain ⟨k, hk⟩ : ∃ k, cs = k + 1 := ⟨cs - 1, by omega⟩
  rw [hk, List.take_succ_cons]
  have hw0 : words[i] ∈ words := List.getElem_mem hi
  obtain ⟨c, cs', hcc⟩ : ∃ c cs', (words[i]).data = c :: cs' := by
    cases hd : (words[i]).data with
    | nil => exact absurd (String.ext hd) (hne _ hw0)
    | cons c cs' => exact ⟨c, cs', rfl⟩
  refine jsTrim_ne_empty
    (mem_intercalate_cons _ _ c (by rw [hcc]; exact List.mem_cons_self c cs')) ?_
  exact hws _ hw0 c (by rw [hcc]; exact List.mem_cons_self c cs')

theorem splitTextLoop_none_of_nonpos (words : List String) (cs : ℕ) (step : ℤ)
    (hstep : step ≤ 0) (hwords : words ≠ []) :
    ∀ (fuel : ℕ) (i : ℤ), i ≤ 0 → splitTextLoop words cs step i fuel = none := by
  intro fuel
  induction fuel with
  | zero => intro i hi; rfl
  | succ fuel ih =>
    intro i hi
    have hlen : 0 < words.length := List.length_pos.mpr hwords
    rw [splitTextLoop]
    rw [if_pos (by omega : i < (words.length : ℤ))]
    rw [ih (i + step) (by omega)]
    rfl

theorem splitTextLoop_isSome (words : List String) (cs : ℕ) (step : ℤ)
    (hstep : 0 < step) :
    ∀ (fuel : ℕ) (i : ℤ), (words.length : ℤ) - i ≤ (fuel : ℤ) →
      (splitTextLoop words cs step i (fuel + 1)).isSome := by
  intro fuel
  induction fuel with
  | zero =>
    intro i hi
    rw [splitTextLoop]
    rw [if_neg (by omega : ¬ (i < (words.length : ℤ)))]
    rfl
  | succ fuel ih =>
    intro i hi
    rw [splitTextLoop]
    by_cases hcond : i < (words.length : ℤ)
    · rw [if_pos hcond]
      have := ih (i + step) (by omega)
      cases hr : splitTextLoop words cs step (i + step) (fuel + 1) with
      | none => rw [hr] at this; exact absurd this (by simp)
      | some rest => rfl
    · rw [if_neg hcond]; rfl

theorem splitTextLoop_value (words : List String) (cs step : ℕ)
    (hstep : 1 ≤ step) (hcs : 1 ≤ cs) (hne : ∀ w ∈ words, w ≠ "")
    (hws : ∀ w ∈ words, ∀ c ∈ w.data, isWS c = false) :
    ∀ (fuel : ℕ) (i : ℕ), words.length ≤ i + fuel →
      splitTextLoop words cs (step : ℤ) (i : ℤ) (fuel + 1) =
        some ((List.range ((words.length - i + step - 1) / step)).map
          (fun j => String.intercalate " " ((words.drop (i + j * step)).take cs))) := by
  intro fuel
  induction fuel with
  | zero =>
    intro i hi
    rw [splitTextLoop]
    rw [if_neg (by omega : ¬ ((i : ℤ) < (words.length : ℤ)))]
    have hK : (words.length - i + step - 1) / step = 0 := by
      have h0 : words.length - i = 0 := by omega
      rw [h0]
      exact Nat.div_eq_of_lt (by omega)
    rw [hK]
    rfl
  | succ fuel ih =>
    intro i hi
    rw [splitTextLoop]
    by_cases hcond : i < words.length
    · rw [if_pos (by omega : (i : ℤ) < (words.length : ℤ))]
      have hstepz : ((i : ℤ) + (step : ℤ)) = ((i + step : ℕ) : ℤ) := by push_cast; ring
      rw [hstepz, ih (i + step) (by omega), Option.map_some']
      rw [if_neg (chunk_trim_ne words cs hcs i hcond hne hws)]
      have hK : (words.length - i + step - 1) / step =
          (words.length - (i + step) + step - 1) / step + 1 := by
        rcases le_or_lt step (words.length - i) with hc1 | hc1
        · have e1 : words.length - i + step - 1 =
              (words.length - (i + step) + step - 1) + step := by omega
          rw [e1, Nat.add_div_right _ (by omega)]
        · have e1 : words.length - i + step - 1 = (words.length - i - 1) + step := by
            omega
          have e2 : words.length - (i + step) = 0 := by omega
          rw [e1, Nat.add_div_right _ (by omega), Nat.div_eq_of_lt (by omega), e2,
            Nat.div_eq_of_lt (by omega)]
      rw [hK, List.range_succ_eq_map, List.map_cons, List.map_map]
      unfold chunkAt
      rw [jsSlice_nat]
      simp only [Nat.zero_mul, Nat.add_zero]
      refine congrArg some (congrArg₂ List.cons rfl ?_)
      refine List.map_congr_left fun j hj => ?_
      simp only [Function.comp_apply]
      have harg : i + Nat.succ j * step = i + step + j * step := by
        rw [Nat.succ_mul]
        ring
      rw [harg]
    · rw [if_neg (by omega : ¬ ((i : ℤ) < (words.length : ℤ)))]
      have hK : (words.length - i + step - 1) / step = 0 := by
        have h0 : words.length - i = 0 := by omega
        rw [h0]
        exact Nat.div_eq_of_lt (by omega)
      rw [hK]
      rfl

/-- C3 counterexample: for text "a b" (N = 2 words), size = 3, overlap = 2,
the loop runs at i = 0 and i = 1 and produces the chunks ["a b", "b"] — 2
chunks, while the claimed count ceil((N - overlap) / (size - overlap)) =
ceil(0 / 1) = 0; moreover the first chunk has only 2 < size words yet is not
the final chunk. -/
theorem C3_counterexample :
    splitTextFuel "a b" 3 2 5 = some ["a b", "b"] ∧
    (["a b", "b"] : List String).length ≠
      ((jsSplitWS "a b").length - 2 + (3 - 2) - 1) / (3 - 2) := by
  exact ⟨by decide, by decide⟩

/-- C3 (amended): for every text whose `split(/\s+/)` yields only non-empty
words and every configuration with overlap < size, splitText produces
exactly the windows `words.slice(j*(size-overlap), j*(size-overlap)+size)`
joined by single spaces, for j = 0 .. ceil(N / (size-overlap)) - 1 (N the
number of words): the chunk count is ceil(N / (size - overlap)), not
ceil((N - overlap) / (size - overlap)), and every window that reaches past
the end of the word list — not only the last one — is shorter than size. -/
theorem C3_chunking (text : String) (cs co : ℕ) (hlt : co < cs)
    (hne : ∀ w ∈ jsSplitWS text, w ≠ "") :
    splitTextFuel text cs co ((jsSplitWS text).length + 1) =
      some ((List.range
          (((jsSplitWS text).length + (cs - co) - 1) / (cs - co))).map
        (fun j => String.intercalate " "
          (((jsSplitWS text).drop (j * (cs - co))).take cs))) := by
  unfold splitTextFuel
  have hstep : ((cs : ℤ) - (co : ℤ)) = ((cs - co : ℕ) : ℤ) := by omega
  rw [hstep, show (0 : ℤ) = ((0 : ℕ) : ℤ) from rfl]
  rw [splitTextLoop_value (jsSplitWS text) cs (cs - co) (by omega) (by omega)
    hne (jsSplitWS_no_ws text) ((jsSplitWS text).length) 0 (by omega)]
  simp

/-- Witness for C3 at text "a b c", size 2, overlap 1: three chunks
"a b", "b c", "c" = ceil(3 / 1) chunks. -/
theorem C3_chunking_witness :
    splitTextFuel "a b c" 2 1 ((jsSplitWS "a b c").length + 1) =
      some ((List.range
          (((jsSplitWS "a b c").length + (2 - 1) - 1) / (2 - 1))).map
        (fun j => String.intercalate " "
          (((jsSplitWS "a b c").drop (j * (2 - 1))).take 2))) ∧
    splitTextFuel "a b c" 2 1 ((jsSplitWS "a b c").length + 1) =
      some ["a b", "b c", "c"] :=
  ⟨C3_chunking "a b c" 2 1 (by decide) (by decide), by decide⟩

/-- C9: for every text, the splitText loop reaches its exit within
words-count + 1 iterations whenever overlap < size (the index grows by
size - overlap ≥ 1 each step), and for overlap ≥ size it never finishes:
for every fuel bound the loop is still running (the JS loop diverges, since
the index never increases past the word count). -/
theorem C9_termination (text : String) (cs co : ℕ) :
    (co < cs →
      (splitTextFuel text cs co ((jsSplitWS text).length + 1)).isSome) ∧
    (cs ≤ co → ∀ fuel : ℕ, splitTextFuel text cs co fuel = none) := by
  constructor
  · intro h
    unfold splitTextFuel
    exact splitTextLoop_isSome _ cs _ (by omega) _ 0 (by omega)
  · intro h fuel
    unfold splitTextFuel
    exact splitTextLoop_none_of_nonpos _ cs _ (by omega) (jsSplitWS_ne_nil text)
      fuel 0 le_rfl

/-- Witness for C9: with size 2 / overlap 1 the loop on "a b" finishes within
3 iterations; with size 2 / overlap 2 it is still running after 5 (and any
number of) iterations. -/
theorem C9_termination_witness :
    (splitTextFuel "a b" 2 1 ((jsSplitWS "a b").length + 1)).isSome ∧
    splitTextFuel "a b" 2 2 5 = none :=
  ⟨(C9_termination "a b" 2 1).1 (by decide), (C9_termination "a b" 2 2).2 (by decide) 5⟩

/-- Witness for C10 at the mismatched vectors [1, 0] and [1]. -/
theorem C10_local_cosine_total_witness :
    localCosineSimilarity [1, 0] [1] =
      vectorCosine
        (([1, 0] : List ℝ) ++ List.replicate
          (max ([1, 0] : List ℝ).length ([1] : List ℝ).length -
            ([1, 0] : List ℝ).length) 0)
        (([1] : List ℝ) ++ List.replicate
          (max ([1, 0] : List ℝ).length ([1] : List ℝ).length -
            ([1] : List ℝ).length) 0) ∧
    semanticCosineSimilarity [1, 0] [1] =
      Except.error "Vectors must have the same length" :=
  ⟨(C10_local_cosine_total [1, 0] [1]).1,
    (C10_local_cosine_total [1, 0] [1]).2 (by decide)⟩
